import Mathlib

set_option maxRecDepth 8000

/-!
# Formal model of the schedule-settings app (toast queue and settings page)

A shallow embedding of the two source files of the repository:

* `src/components/ui/use-toast.ts` — the toast notification queue
  (module-level id counter, per-hook toast list, timed auto-removal);
* `src/client/src/pages/settings.tsx` — form schemas, mutation
  success/error handlers and the `calculateDuration` display helper.

JavaScript numbers are modelled as exact integers (`Nat`/`Int`); `NaN`
is modelled as `none` in `Option Int` where it can arise.  Strings are
Lean `String`s.  Each definition is a direct transliteration of the
corresponding TypeScript source.
-/

namespace Escala

/-! ## Toast queue model (`src/components/ui/use-toast.ts`) -/

/-- Source constant `TOAST_LIMIT = 1`. -/
def TOAST_LIMIT : Nat := 1

/-- Source constant `TOAST_REMOVE_DELAY = 1000000` (milliseconds). -/
def TOAST_REMOVE_DELAY : Int := 1000000

/-- The message payload passed to `toast(props)` — the `ToasterToast`
fields minus the `id`.  The `action` field is a React node in the
source; it is opaque to the queue logic and modelled as `Option Unit`. -/
structure ToastProps where
  title : Option String := none
  description : Option String := none
  action : Option Unit := none
deriving DecidableEq, Repr

/-- Source type `ToasterToast`: an id plus the payload fields. -/
structure ToasterToast where
  id : String
  title : Option String := none
  description : Option String := none
  action : Option Unit := none
deriving DecidableEq, Repr

/-- Building `{ id, ...props }` in the enqueue path. -/
def mkToast (id : String) (p : ToastProps) : ToasterToast :=
  { id := id, title := p.title, description := p.description, action := p.action }

/-- `Number.MAX_VALUE` is the exact integer `(2^53 - 1) * 2^971 = 2^1024 - 2^971`.
The module counter `count` is modelled as an unbounded integer; rounding of
IEEE doubles above `2^53` is not modelled (the counter arithmetic of the
source is exact below that point). -/
def numberMaxValue : Nat := 2 ^ 1024 - 2 ^ 971

/-- Source `genId`: `count = (count + 1) % Number.MAX_VALUE; return count.toString()`.
Returns the updated module counter together with the produced id string. -/
def genIdStep (count : Nat) : Nat × String :=
  let c := (count + 1) % numberMaxValue
  (c, toString c)

/-- Iterating the counter update of `genId` from the initial module state
`count = 0`. -/
def genIdIter : Nat → Nat
  | 0 => 0
  | n + 1 => (genIdStep (genIdIter n)).1

/-- State of one `useToast()` hook instance together with the module-level
pieces it interacts with: the shared counter, the pending `setTimeout`
removals (fire time and captured id) and the current clock. -/
structure ToastSys where
  count : Nat
  toasts : List ToasterToast
  timers : List (Int × String)
  now : Int
deriving DecidableEq, Repr

/-- Source `toast(props)`: generate an id with `genId`, append the new
entry and truncate with `.slice(0, TOAST_LIMIT)`, and schedule a removal
of that id after `TOAST_REMOVE_DELAY`. -/
def toastOp (p : ToastProps) (s : ToastSys) : ToastSys :=
  let c := (s.count + 1) % numberMaxValue
  let id := toString c
  { count := c
    toasts := (s.toasts ++ [mkToast id p]).take TOAST_LIMIT
    timers := s.timers ++ [(s.now + TOAST_REMOVE_DELAY, id)]
    now := s.now }

/-- Advance the clock to time `t`, firing every scheduled removal that is
due.  Each firing is the source callback
`setState(toasts.filter(t => t.id !== id))` for its captured id. -/
def elapseTo (t : Int) (s : ToastSys) : ToastSys :=
  let due := (s.timers.filter (fun e => decide (e.1 ≤ t))).map Prod.snd
  { count := s.count
    toasts := due.foldl (fun ts id => ts.filter (fun x => x.id != id)) s.toasts
    timers := s.timers.filter (fun e => !(decide (e.1 ≤ t)))
    now := t }

/-- A world of several simultaneously mounted `useToast()` instances.
The source hook keeps `toasts` in `React.useState`, so each instance
owns its own list; only the id counter `count` is module-level. -/
structure ToastWorld where
  count : Nat
  inst : Nat → List ToasterToast

/-- Reading `toasts` through instance `i` of the hook. -/
def useToastRead (w : ToastWorld) (i : Nat) : List ToasterToast :=
  w.inst i

/-- Calling `toast(props)` through instance `i`: the shared counter is
bumped, but the `setState` updater touches only instance `i`'s list. -/
def toastVia (i : Nat) (p : ToastProps) (w : ToastWorld) : ToastWorld :=
  let c := (w.count + 1) % numberMaxValue
  { count := c
    inst := fun j => if j = i then (w.inst j ++ [mkToast (toString c) p]).take TOAST_LIMIT
            else w.inst j }

/-! ## Duration display (`calculateDuration` in `settings.tsx`)

The source builds `new Date("2023-01-01T" + s)` for each argument and
subtracts the epoch timestamps.  An invalid time string gives an
*Invalid Date* whose `getTime()` is `NaN`; the `Date` constructor never
throws, so the `catch` branch of the source is unreachable.  A JS number
that may be `NaN` is modelled as `Option Int` with `none` for `NaN`. -/

/-- Numeric value of a decimal digit character, `none` otherwise. -/
def digitVal : Char → Option Nat
  | c => if c.isDigit then some (c.toNat - 48) else none

/-- Parse of the time component accepted by
`new Date("2023-01-01T" + s)` for the five-character `HH:MM` shape used
by the app: two digits, a colon, two digits, with `0 ≤ HH ≤ 23` and
`0 ≤ MM ≤ 59` (the ECMAScript format also admits `24:00` as end of
day).  Longer conforming shapes (`HH:MM:SS`) do not occur in this
app and are not modelled; every other string yields an Invalid Date,
i.e. `none`. -/
def parseClockHHMM (s : String) : Option (Nat × Nat) :=
  match s.toList with
  | [c1, c2, c3, c4, c5] =>
    if c3 = ':' then
      match digitVal c1, digitVal c2, digitVal c4, digitVal c5 with
      | some h1, some h2, some m1, some m2 =>
        let h := 10 * h1 + h2
        let m := 10 * m1 + m2
        if (h ≤ 23 ∧ m ≤ 59) ∨ (h = 24 ∧ m = 0) then some (h, m) else none
      | _, _, _, _ => none
    else none
  | _ => none

/-- Epoch milliseconds of `2023-01-01T00:00` (UTC).  The source parses
both arguments on the same fixed date, so this base cancels in the
subtraction; the local-time offset, likewise common to both, is folded
into it. -/
def baseMs : Int := 1672531200000

/-- `new Date("2023-01-01T" + s).getTime()`: `none` is the `NaN` of an
Invalid Date. -/
def getTimeMs (s : String) : Option Int :=
  (parseClockHHMM s).map (fun hm => baseMs + ((hm.1 * 60 + hm.2 : Nat) : Int) * 60000)

/-- JS subtraction on possibly-`NaN` numbers. -/
def jsSub : Option Int → Option Int → Option Int
  | some a, some b => some (a - b)
  | _, _ => none

/-- `Math.floor(x / d)` for a positive integer divisor `d`: floored
division, with `NaN` propagated. -/
def jsFloorDiv (x : Option Int) (d : Int) : Option Int :=
  x.map (fun a => Int.fdiv a d)

/-- JS `%` (remainder with the dividend's sign, i.e. truncated), with
`NaN` propagated. -/
def jsRem (x : Option Int) (d : Int) : Option Int :=
  x.map (fun a => Int.tmod a d)

/-- JS comparison `x < c`: false when `x` is `NaN`. -/
def jsLtNum (x : Option Int) (c : Int) : Bool :=
  match x with
  | some a => decide (a < c)
  | none => false

/-- JS comparison `x > c`: false when `x` is `NaN`. -/
def jsGtNum (x : Option Int) (c : Int) : Bool :=
  match x with
  | some a => decide (c < a)
  | none => false

/-- JS number-to-string coercion inside a template literal: decimal
digits for integers, `"NaN"` for `NaN`. -/
def numToString : Option Int → String
  | some a => toString a
  | none => "NaN"

/-- The literal returned by the source's `catch` branch.  That branch is
dead code: nothing in the `try` body throws (the `Date` constructor and
`NaN` arithmetic do not raise), so this label is never produced. -/
def catchFallbackLabel : String := "Formato inválido"

/-- Source `calculateDuration(startTime, endTime)`, transliterated line
by line; the `try` body is total, so the model is the `try` body. -/
def calculateDuration (startTime endTime : String) : String :=
  let start := getTimeMs startTime
  let endT := getTimeMs endTime
  let durationMs := jsSub endT start
  let minutes := jsFloorDiv durationMs 60000
  if jsLtNum minutes 60 then
    numToString minutes ++ " minutos"
  else
    let hours := jsFloorDiv minutes 60
    let remainingMins := jsRem minutes 60
    if jsGtNum remainingMins 0 then
      numToString hours ++ "h " ++ numToString remainingMins ++ "min"
    else
      numToString hours ++ " horas"

/-! ## Settings page: mutations, schema, submit dispatch (`settings.tsx`) -/

/-- JS truthiness of a `number | null | undefined` value: `null`,
`undefined` and `0` are falsy.  This is the test performed by
`if (editingActivityId)` and `if (data.id)` in the source. -/
def jsTruthyNum : Option Nat → Bool
  | some n => n != 0
  | none => false

/-- The values of the activity-type form (`ActivityTypeFormValues`). -/
structure ActivityTypeFormValues where
  name : String
  code : String
  color : String
deriving DecidableEq, Repr

/-- Source `activityTypeSchema` (zod): `name` at least 2 characters,
`code` at least 2 characters, `color` at least 1 character; all failing
fields collect their messages.  String length is the Lean character
count (the source uses UTF-16 units; they agree on the app's data). -/
def activityTypeSchemaCheck (v : ActivityTypeFormValues) : List (String × String) :=
  (if v.name.length < 2 then [("name", "Nome deve ter pelo menos 2 caracteres")] else [])
    ++ (if v.code.length < 2 then [("code", "Código deve ter pelo menos 2 caracteres")] else [])
    ++ (if v.color.length < 1 then [("color", "Cor é obrigatória")] else [])

/-- One HTTP request issued through `apiRequest`. -/
structure NetworkCall where
  method : String
  url : String
deriving DecidableEq, Repr

/-- The argument of `saveActivityType`: the form values, with `id`
present only when the submit handler attached one. -/
structure ActivityTypePayload where
  name : String
  code : String
  color : String
  id : Option Nat := none
deriving DecidableEq, Repr

/-- Source `onSubmitActivityType`: `if (editingActivityId)` — a truthy
(non-null, non-zero) editing id is spread into the payload, otherwise
the payload carries no id. -/
def onSubmitActivityType (editingActivityId : Option Nat)
    (v : ActivityTypeFormValues) : ActivityTypePayload :=
  if jsTruthyNum editingActivityId then
    { name := v.name, code := v.code, color := v.color, id := editingActivityId }
  else
    { name := v.name, code := v.code, color := v.color, id := none }

/-- The `mutationFn` of `saveActivityType`: `if (data.id)` dispatches
`PUT /api/activity-types/{id}`, otherwise `POST /api/activity-types`
(again JS truthiness: an id of `0` takes the `POST` branch). -/
def saveActivityTypeRequest (d : ActivityTypePayload) : NetworkCall :=
  match d.id with
  | some i =>
    if i != 0 then { method := "PUT", url := "/api/activity-types/" ++ toString i }
    else { method := "POST", url := "/api/activity-types" }
  | none => { method := "POST", url := "/api/activity-types" }

/-- Modelled from the spec: `react-hook-form`'s
`handleSubmit(onSubmitActivityType)` with `zodResolver(activityTypeSchema)`
(a library collaborator, not part of the repository sources) invokes the
submit callback only when the schema passes; otherwise it surfaces the
field-level messages and no network call is made.  Returns the requests
issued and the surfaced field errors. -/
def handleSubmitActivity (editingActivityId : Option Nat)
    (v : ActivityTypeFormValues) : List NetworkCall × List (String × String) :=
  match activityTypeSchemaCheck v with
  | [] => ([saveActivityTypeRequest (onSubmitActivityType editingActivityId v)], [])
  | es => ([], es)

/-- The four write mutations declared in `settings.tsx`. -/
inductive WriteMutation
  | saveActivityType (payloadId : Option Nat)
  | deleteActivityType (id : Nat)
  | saveTimeSlot
  | deleteTimeSlot (id : Nat)
deriving DecidableEq, Repr

/-- One observable action performed by a mutation callback, in source
order: a `toast(...)` call, a modal open/close, a form reset, an
editing-id update, or a `queryClient.invalidateQueries` call. -/
inductive Effect
  | toastCall (title : String) (description : String) (variant : String)
  | setModal (modal : String) (opened : Bool)
  | resetForm (form : String)
  | setEditingId (v : Option Nat)
  | invalidate (queryKey : String)
deriving DecidableEq, Repr

/-- The `onSuccess` handler of each mutation, transliterated in source
order.  `saveActivityType` reads `editingActivityId` for its message. -/
def onSuccessEffects (editingActivityId : Option Nat) : WriteMutation → List Effect
  | .saveActivityType _ =>
    [ .toastCall "Sucesso"
        (if jsTruthyNum editingActivityId then "Tipo de atividade atualizado com sucesso."
         else "Tipo de atividade criado com sucesso.") "default"
    , .setModal "activity" false
    , .resetForm "activity"
    , .setEditingId none
    , .invalidate "/api/activity-types" ]
  | .deleteActivityType _ =>
    [ .toastCall "Sucesso" "Tipo de atividade excluído com sucesso." "default"
    , .invalidate "/api/activity-types" ]
  | .saveTimeSlot =>
    [ .toastCall "Sucesso" "Horário adicionado com sucesso." "default"
    , .setModal "timeSlot" false
    , .resetForm "timeSlot"
    , .invalidate "/api/time-slots" ]
  | .deleteTimeSlot _ =>
    [ .toastCall "Sucesso" "Horário excluído com sucesso." "default"
    , .invalidate "/api/time-slots" ]

/-- The `onError` handler of each mutation: one destructive toast whose
description interpolates `error.message`; no other effect. -/
def onErrorEffects (m : WriteMutation) (errMessage : String) : List Effect :=
  match m with
  | .saveActivityType _ => [.toastCall "Erro" ("Falha ao salvar: " ++ errMessage) "destructive"]
  | .deleteActivityType _ => [.toastCall "Erro" ("Falha ao excluir: " ++ errMessage) "destructive"]
  | .saveTimeSlot => [.toastCall "Erro" ("Falha ao salvar: " ++ errMessage) "destructive"]
  | .deleteTimeSlot _ => [.toastCall "Erro" ("Falha ao excluir: " ++ errMessage) "destructive"]

/-- The cached list resource a mutation writes to. -/
def resourceKey : WriteMutation → String
  | .saveActivityType _ => "/api/activity-types"
  | .deleteActivityType _ => "/api/activity-types"
  | .saveTimeSlot => "/api/time-slots"
  | .deleteTimeSlot _ => "/api/time-slots"

/-- Number of `invalidateQueries` calls for a given key in an effect
list. -/
def countInvalidations (key : String) (es : List Effect) : Nat :=
  es.countP (fun e =>
    match e with
    | .invalidate k => k == key
    | _ => false)

/-! ## Helper lemmas -/

/-- `Number.MAX_VALUE` exceeds 1. -/
theorem one_lt_numberMaxValue : 1 < numberMaxValue := by
  have h : (2 : Nat) ^ 971 < 2 ^ 1024 := by
    exact Nat.pow_lt_pow_right (by norm_num) (by norm_num)
  have h2 : (2 : Nat) ≤ 2 ^ 971 := Nat.le_self_pow (by norm_num) 2
  unfold numberMaxValue
  omega

/-- `Number.MAX_VALUE` exceeds every value appearing in the concrete
runs below. -/
theorem hundred_lt_numberMaxValue : (100 : Nat) < numberMaxValue := by
  have h1 : (100 : Nat) < 2 ^ 7 := by norm_num
  have h2 : (2 : Nat) ^ 7 ≤ 2 ^ 970 := Nat.pow_le_pow_right (by norm_num) (by norm_num)
  have hb : (2 : Nat) ^ 971 = 2 ^ 970 * 2 := by
    rw [show (971 : Nat) = 970 + 1 by norm_num, pow_succ]
  have hc : (2 : Nat) ^ 972 = 2 ^ 971 * 2 := by
    rw [show (972 : Nat) = 971 + 1 by norm_num, pow_succ]
  have hd : (2 : Nat) ^ 972 ≤ 2 ^ 1024 := Nat.pow_le_pow_right (by norm_num) (by norm_num)
  unfold numberMaxValue
  omega

/-- Small counter values are fixed by the wrap modulus. -/
theorem mod_maxValue_small {n : Nat} (h : n ≤ 100) : n % numberMaxValue = n :=
  Nat.mod_eq_of_lt (lt_of_le_of_lt h hundred_lt_numberMaxValue)

theorem one_mod_maxValue : 1 % numberMaxValue = 1 := mod_maxValue_small (by norm_num)

theorem two_mod_maxValue : 2 % numberMaxValue = 2 := mod_maxValue_small (by norm_num)

/-- After `k` calls, the module counter of `genId` holds `k` modulo
`Number.MAX_VALUE`. -/
theorem genIdIter_mod (k : Nat) : genIdIter k = k % numberMaxValue := by
  induction k with
  | zero => simp [genIdIter]
  | succ n ih =>
    simp only [genIdIter, genIdStep, ih]
    exact Nat.mod_add_mod n numberMaxValue 1

theorem int_fdiv_natCast (m n : Nat) :
    Int.fdiv (m : Int) (n : Int) = ((m / n : Nat) : Int) :=
  (Int.ofNat_fdiv m n).symm

theorem int_tmod_natCast (m n : Nat) :
    Int.tmod (m : Int) (n : Int) = ((m % n : Nat) : Int) :=
  (Int.ofNat_tmod m n).symm

theorem toString_intOfNat (n : Nat) : toString (n : Int) = toString n := rfl

/-! ## Claim theorems -/

/-- C1 (counterexample): enqueueing a second message while one is
displayed keeps the OLD entry and drops the new one — `slice(0, 1)`
after an append retains the head.  Immediately after the second enqueue
the list does not contain the message that was just enqueued. -/
theorem toast_newest_dropped_cex :
    (toastOp { title := some "segunda" }
        (toastOp { title := some "primeira" }
          { count := 0, toasts := [], timers := [], now := 0 })).toasts
      = [mkToast "1" { title := some "primeira" }] ∧
    mkToast "2" { title := some "segunda" } ∉
      (toastOp { title := some "segunda" }
        (toastOp { title := some "primeira" }
          { count := 0, toasts := [], timers := [], now := 0 })).toasts := by
  have e1 : (0 + 1) % numberMaxValue = 1 := by simpa using one_mod_maxValue
  have e2 : (1 + 1) % numberMaxValue = 2 := by simpa using two_mod_maxValue
  constructor
  · simp only [toastOp, e1, e2]
    decide
  · simp only [toastOp, e1, e2]
    decide

/-- C1 (amended): the visible list never exceeds `TOAST_LIMIT = 1`
entries; an enqueue into an empty list installs exactly the new
message, but an enqueue while an entry is present keeps that existing
(oldest) entry — the entry beyond the cap that is dropped is the NEW
one, not the oldest. -/
theorem toast_cap_keeps_oldest (p : ToastProps) (s : ToastSys) :
    (toastOp p s).toasts.length ≤ TOAST_LIMIT ∧
    (s.toasts = [] →
      (toastOp p s).toasts = [mkToast (toString ((s.count + 1) % numberMaxValue)) p]) ∧
    (∀ x xs, s.toasts = x :: xs → (toastOp p s).toasts = [x]) := by
  refine ⟨?_, ?_, ?_⟩
  · simp only [toastOp, TOAST_LIMIT]
    exact List.length_take_le 1 _
  · intro h
    simp [toastOp, h, TOAST_LIMIT]
  · intro x xs h
    simp [toastOp, h, TOAST_LIMIT]

/-- C1 (witness for the amended theorem). -/
theorem toast_cap_keeps_oldest_w :
    (toastOp { title := some "b" }
        { count := 1, toasts := [mkToast "1" { title := some "a" }], timers := [], now := 0 }).toasts
      = [mkToast "1" { title := some "a" }] ∧
    (toastOp { title := some "a" }
        { count := 0, toasts := [], timers := [], now := 0 }).toasts
      = [mkToast "1" { title := some "a" }] := by
  constructor
  · exact (toast_cap_keeps_oldest { title := some "b" } _).2.2 _ _ rfl
  · have e1 : (0 + 1) % numberMaxValue = 1 := by simpa using one_mod_maxValue
    have h := (toast_cap_keeps_oldest { title := some "a" }
      { count := 0, toasts := [], timers := [], now := 0 }).2.1 rfl
    rw [e1] at h
    exact h.trans (by decide)

/-- C2 (code bug): on an unparsable time string the source returns
`"NaN horas"`, not the `catch` label `"Formato inválido"` — the `Date`
constructor yields an Invalid Date (`NaN` timestamp) without throwing,
`NaN` fails every comparison, and the final branch renders `"NaN
horas"`; the `catch` branch is dead code. -/
theorem calculateDuration_invalid_nan :
    calculateDuration "abc" "09:00" = "NaN horas" ∧
    calculateDuration "08:00" "abc" = "NaN horas" ∧
    calculateDuration "abc" "abc" = "NaN horas" ∧
    "NaN horas" ≠ catchFallbackLabel := by
  refine ⟨by decide, by decide, by decide, by decide⟩

/-- C3 (counterexample): at the wrap point the counter update
`(count + 1) % Number.MAX_VALUE` produces 0, not 1 — `genId` returns
the id `"0"`, which is not positive. -/
theorem genId_wrap_yields_zero_cex :
    (genIdStep (numberMaxValue - 1)).1 = 0 ∧
    (genIdStep (numberMaxValue - 1)).2 = "0" ∧
    ¬ 0 < (genIdStep (numberMaxValue - 1)).1 := by
  have h1 : 1 ≤ numberMaxValue := le_of_lt one_lt_numberMaxValue
  have h : numberMaxValue - 1 + 1 = numberMaxValue := by omega
  refine ⟨?_, ?_, ?_⟩
  · simp [genIdStep, h, Nat.mod_self]
  · simp only [genIdStep, h, Nat.mod_self]
    decide
  · simp [genIdStep, h, Nat.mod_self]

/-- C3 (amended): `genId` advances the process-wide counter by 1 modulo
`Number.MAX_VALUE` (so after `k` calls the counter is
`k % Number.MAX_VALUE`, in the exact-integer idealisation of JS
numbers).  While `count + 1` is below the bound each call returns the
positive value `count + 1`; at the bound the call wraps to 0 — yielding
the id `"0"` — and only the following call returns 1. -/
theorem genId_counter_amended (c k : Nat) :
    (c + 1 < numberMaxValue →
      (genIdStep c).1 = c + 1 ∧ 0 < (genIdStep c).1 ∧ (genIdStep c).2 = toString (c + 1)) ∧
    genIdIter k = k % numberMaxValue ∧
    (genIdStep (numberMaxValue - 1)).1 = 0 ∧
    (genIdStep ((genIdStep (numberMaxValue - 1)).1)).1 = 1 := by
  have h1 : 1 ≤ numberMaxValue := le_of_lt one_lt_numberMaxValue
  have hw : numberMaxValue - 1 + 1 = numberMaxValue := by omega
  refine ⟨?_, genIdIter_mod k, ?_, ?_⟩
  · intro hc
    have hmod : (c + 1) % numberMaxValue = c + 1 := Nat.mod_eq_of_lt hc
    refine ⟨by simp [genIdStep, hmod], by simp [genIdStep, hmod], by simp [genIdStep, hmod]⟩
  · simp [genIdStep, hw, Nat.mod_self]
  · simp [genIdStep, hw, Nat.mod_self, one_mod_maxValue]

/-- C3 (witness for the amended theorem). -/
theorem genId_counter_amended_w :
    (genIdStep 0).1 = 0 + 1 ∧ 0 < (genIdStep 0).1 ∧ (genIdStep 0).2 = toString (0 + 1) :=
  (genId_counter_amended 0 0).1 one_lt_numberMaxValue

/-- C4 (counterexample): with two mounted `useToast()` instances, a
message enqueued through instance 0 is not observable in the list read
through instance 1 — the hook state is `React.useState`, local to each
instance, not process-wide. -/
theorem useToast_not_shared_cex :
    useToastRead (toastVia 0 { title := some "Sucesso" } { count := 0, inst := fun _ => [] }) 1
      = [] ∧
    mkToast "1" { title := some "Sucesso" } ∉
      useToastRead (toastVia 0 { title := some "Sucesso" } { count := 0, inst := fun _ => [] }) 1 ∧
    useToastRead (toastVia 0 { title := some "Sucesso" } { count := 0, inst := fun _ => [] }) 0
      = [mkToast "1" { title := some "Sucesso" }] := by
  have e1 : (0 + 1) % numberMaxValue = 1 := by simpa using one_mod_maxValue
  refine ⟨rfl, by decide, ?_⟩
  show ([] ++ [mkToast (toString ((0 + 1) % numberMaxValue))
      { title := some "Sucesso" }]).take TOAST_LIMIT
    = [mkToast "1" { title := some "Sucesso" }]
  rw [e1]
  decide

/-- C4 (amended): each `useToast()` instance owns a private toast list;
enqueueing through instance `i` leaves every other instance's list
unchanged and updates only instance `i`'s list.  Only the id counter is
process-wide state shared by all instances. -/
theorem useToast_per_instance (w : ToastWorld) (i j : Nat) (p : ToastProps) (h : i ≠ j) :
    useToastRead (toastVia i p w) j = useToastRead w j ∧
    useToastRead (toastVia i p w) i
      = (useToastRead w i ++ [mkToast (toString ((w.count + 1) % numberMaxValue)) p]).take
          TOAST_LIMIT ∧
    (toastVia i p w).count = (w.count + 1) % numberMaxValue := by
  refine ⟨?_, ?_, rfl⟩
  · show (if j = i then _ else w.inst j) = w.inst j
    rw [if_neg (Ne.symm h)]
  · show (if i = i then (w.inst i ++ _).take TOAST_LIMIT else _) = _
    rw [if_pos rfl]
    rfl

/-- C4 (witness for the amended theorem). -/
theorem useToast_per_instance_w :
    useToastRead (toastVia 0 { title := some "m" } { count := 0, inst := fun _ => [] }) 1
      = useToastRead { count := 0, inst := fun _ => [] } 1 :=
  (useToast_per_instance { count := 0, inst := fun _ => [] } 0 1 { title := some "m" }
    (by decide)).1

/-- C6: the removal scheduled by an enqueue fires once the clock passes
`TOAST_REMOVE_DELAY` after the insertion and removes exactly the entries
carrying the id assigned at that enqueue (the fired callback is a filter
on that id); before the deadline the list is untouched, and after it no
entry with that id remains. -/
theorem toast_auto_removal (s : ToastSys) (p : ToastProps) (t t2 : Int)
    (hq : s.timers = []) (ht : s.now + TOAST_REMOVE_DELAY ≤ t)
    (ht2 : t2 < s.now + TOAST_REMOVE_DELAY) :
    (elapseTo t (toastOp p s)).toasts
      = (toastOp p s).toasts.filter
          (fun x => x.id != toString ((s.count + 1) % numberMaxValue)) ∧
    (∀ x ∈ (elapseTo t (toastOp p s)).toasts,
      x.id ≠ toString ((s.count + 1) % numberMaxValue)) ∧
    (elapseTo t2 (toastOp p s)).toasts = (toastOp p s).toasts := by
  have htimers : (toastOp p s).timers
      = [(s.now + TOAST_REMOVE_DELAY, toString ((s.count + 1) % numberMaxValue))] := by
    simp [toastOp, hq]
  have hnow : (toastOp p s).now = s.now := rfl
  have hfire : (elapseTo t (toastOp p s)).toasts
      = (toastOp p s).toasts.filter
          (fun x => x.id != toString ((s.count + 1) % numberMaxValue)) := by
    simp only [elapseTo, htimers, hnow]
    rw [List.filter_cons_of_pos (by simpa using ht)]
    simp
  refine ⟨hfire, ?_, ?_⟩
  · intro x hx
    rw [hfire] at hx
    have := List.of_mem_filter hx
    simpa using this
  · simp only [elapseTo, htimers, hnow]
    rw [List.filter_cons_of_neg (by simpa using not_le.mpr ht2)]
    simp

/-- C6 (witness). -/
theorem toast_auto_removal_w :
    (elapseTo 1000000 (toastOp { title := some "w" }
        { count := 0, toasts := [], timers := [], now := 0 })).toasts = [] := by
  have h := (toast_auto_removal
    { count := 0, toasts := [], timers := [], now := 0 } { title := some "w" }
    1000000 5 rfl (by decide) (by decide)).1
  rw [h]
  have e1 : (0 + 1) % numberMaxValue = 1 := by simpa using one_mod_maxValue
  have h2 : (toastOp { title := some "w" }
      { count := 0, toasts := [], timers := [], now := 0 }).toasts
      = [mkToast "1" { title := some "w" }] := by
    simp only [toastOp, e1]
    decide
  rw [h2, e1]
  decide

/-- C7: every write mutation's success handler invalidates the cached
list of its own resource exactly once, while its error handler performs
no invalidation at all and enqueues exactly one destructive-styled
notification whose description contains the error's message text. -/
theorem mutation_cache_policy (m : WriteMutation) (e : Option Nat) (msg : String) :
    countInvalidations (resourceKey m) (onSuccessEffects e m) = 1 ∧
    (∀ k, countInvalidations k (onErrorEffects m msg) = 0) ∧
    (∃ pre, onErrorEffects m msg = [Effect.toastCall "Erro" (pre ++ msg) "destructive"]) := by
  refine ⟨?_, ?_, ?_⟩
  · cases m <;> simp [countInvalidations, onSuccessEffects, resourceKey]
  · intro k
    cases m <;> simp [countInvalidations, onErrorEffects]
  · cases m
    · exact ⟨"Falha ao salvar: ", rfl⟩
    · exact ⟨"Falha ao excluir: ", rfl⟩
    · exact ⟨"Falha ao salvar: ", rfl⟩
    · exact ⟨"Falha ao excluir: ", rfl⟩

/-- C8: the activity-type schema passes exactly when the name has at
least 2 characters, the code at least 2 and the color at least 1; on any
violating input the gated submit issues no network call and surfaces a
non-empty list of field-level messages. -/
theorem activityType_validation (v : ActivityTypeFormValues) (e : Option Nat) :
    (activityTypeSchemaCheck v = [] ↔
      2 ≤ v.name.length ∧ 2 ≤ v.code.length ∧ 1 ≤ v.color.length) ∧
    ((v.name.length < 2 ∨ v.code.length < 2 ∨ v.color.length < 1) →
      (handleSubmitActivity e v).1 = [] ∧ (handleSubmitActivity e v).2 ≠ []) := by
  constructor
  · unfold activityTypeSchemaCheck
    split_ifs with h1 h2 h3 <;> simp <;> omega
  · intro hbad
    have hne : activityTypeSchemaCheck v ≠ [] := by
      unfold activityTypeSchemaCheck
      rcases hbad with h | h | h
      · rw [if_pos h]
        simp
      · rw [if_pos h]
        simp
      · rw [if_pos h]
        simp
    unfold handleSubmitActivity
    cases heq : activityTypeSchemaCheck v with
    | nil => exact absurd heq hne
    | cons x xs => simp [heq] at hne ⊢

/-- C8 (witness): the 1-character name `"A"` is rejected with no
network call. -/
theorem activityType_validation_w :
    (handleSubmitActivity none { name := "A", code := "ab", color := "#fff" }).1 = [] ∧
    (handleSubmitActivity none { name := "A", code := "ab", color := "#fff" }).2 ≠ [] :=
  (activityType_validation { name := "A", code := "ab", color := "#fff" } none).2
    (Or.inl (by decide))

/-- C9 (counterexample): with the editing id set to 0 the submit
dispatches a create (`POST`), not an update (`PUT`) — the source tests
`if (editingActivityId)`, and the number 0 is falsy in JS. -/
theorem editId_zero_dispatch_cex :
    saveActivityTypeRequest
        (onSubmitActivityType (some 0)
          { name := "Aula Normal", code := "aula", color := "#3b82f6" })
      = { method := "POST", url := "/api/activity-types" } ∧
    saveActivityTypeRequest
        (onSubmitActivityType (some 0)
          { name := "Aula Normal", code := "aula", color := "#3b82f6" })
      ≠ { method := "PUT", url := "/api/activity-types/0" } := by
  constructor
  · decide
  · decide

/-- C9 (amended): submitting dispatches an update (`PUT` with the
editing id) when a NONZERO editing id is set and a create (`POST`) when
the editing id is unset or 0 (JS truthiness treats 0 as unset); and the
success handler closes the modal, resets the form and clears the
editing id to none. -/
theorem activity_submit_dispatch (e : Option Nat) (v : ActivityTypeFormValues)
    (i pid : Nat) :
    (e = some i → i ≠ 0 →
      saveActivityTypeRequest (onSubmitActivityType e v)
        = { method := "PUT", url := "/api/activity-types/" ++ toString i }) ∧
    ((e = none ∨ e = some 0) →
      saveActivityTypeRequest (onSubmitActivityType e v)
        = { method := "POST", url := "/api/activity-types" }) ∧
    (Effect.setModal "activity" false ∈ onSuccessEffects e (.saveActivityType (some pid)) ∧
      Effect.resetForm "activity" ∈ onSuccessEffects e (.saveActivityType (some pid)) ∧
      Effect.setEditingId none ∈ onSuccessEffects e (.saveActivityType (some pid))) := by
  refine ⟨?_, ?_, ?_, ?_, ?_⟩
  · rintro rfl hi
    simp [onSubmitActivityType, jsTruthyNum, hi, saveActivityTypeRequest]
  · rintro (rfl | rfl)
    · simp [onSubmitActivityType, jsTruthyNum, saveActivityTypeRequest]
    · simp [onSubmitActivityType, jsTruthyNum, saveActivityTypeRequest]
  · simp [onSuccessEffects]
  · simp [onSuccessEffects]
  · simp [onSuccessEffects]

/-- C9 (witness for the amended theorem). -/
theorem activity_submit_dispatch_w :
    saveActivityTypeRequest
        (onSubmitActivityType (some 3) { name := "Aula", code := "AU", color := "#fff" })
      = { method := "PUT", url := "/api/activity-types/" ++ toString 3 } :=
  (activity_submit_dispatch (some 3) { name := "Aula", code := "AU", color := "#fff" } 3 3).1
    rfl (by decide)

/-- For parsed time strings the computed minute count is the exact
difference of the two clock readings (helper for the duration claims). -/
theorem duration_minutes_eq (s t : String) (a b c d : Nat)
    (hs : parseClockHHMM s = some (a, b)) (ht : parseClockHHMM t = some (c, d)) :
    jsFloorDiv (jsSub (getTimeMs t) (getTimeMs s)) 60000
      = some (((c * 60 + d : Nat) : Int) - ((a * 60 + b : Nat) : Int)) := by
  simp only [getTimeMs, hs, ht, Option.map_some', jsSub, jsFloorDiv]
  congr 1
  have harith : (baseMs + ((c * 60 + d : Nat) : Int) * 60000)
      - (baseMs + ((a * 60 + b : Nat) : Int) * 60000)
      = (((c * 60 + d : Nat) : Int) - ((a * 60 + b : Nat) : Int)) * 60000 := by ring
  rw [harith, Int.mul_fdiv_cancel _ (by norm_num)]

/-- C5: for well-formed `HH:MM` inputs with the end not before the
start, `calculateDuration` renders `"{m} minutos"` under 60 minutes,
`"{h} horas"` at a whole number of hours, and `"{h}h {m}min"`
otherwise. -/
theorem calculateDuration_formats (s t : String) (a b c d : Nat)
    (hs : parseClockHHMM s = some (a, b)) (ht : parseClockHHMM t = some (c, d))
    (hle : a * 60 + b ≤ c * 60 + d) :
    calculateDuration s t =
      (if (c * 60 + d) - (a * 60 + b) < 60 then
        toString ((c * 60 + d) - (a * 60 + b)) ++ " minutos"
      else if ((c * 60 + d) - (a * 60 + b)) % 60 = 0 then
        toString (((c * 60 + d) - (a * 60 + b)) / 60) ++ " horas"
      else
        toString (((c * 60 + d) - (a * 60 + b)) / 60) ++ "h "
          ++ toString (((c * 60 + d) - (a * 60 + b)) % 60) ++ "min") := by
  have hmin : jsFloorDiv (jsSub (getTimeMs t) (getTimeMs s)) 60000
      = some ((((c * 60 + d) - (a * 60 + b) : Nat) : Int)) := by
    rw [duration_minutes_eq s t a b c d hs ht]
    congr 1
    omega
  have hh : jsFloorDiv (some ((((c * 60 + d) - (a * 60 + b) : Nat)) : Int)) 60
      = some ((((c * 60 + d) - (a * 60 + b)) / 60 : Nat) : Int) := by
    simp only [jsFloorDiv, Option.map_some']
    exact congrArg some (by exact_mod_cast int_fdiv_natCast ((c * 60 + d) - (a * 60 + b)) 60)
  have hr : jsRem (some ((((c * 60 + d) - (a * 60 + b) : Nat)) : Int)) 60
      = some ((((c * 60 + d) - (a * 60 + b)) % 60 : Nat) : Int) := by
    simp only [jsRem, Option.map_some']
    exact congrArg some (by exact_mod_cast int_tmod_natCast ((c * 60 + d) - (a * 60 + b)) 60)
  simp only [calculateDuration]
  rw [hmin, hh, hr]
  by_cases hlt : (c * 60 + d) - (a * 60 + b) < 60
  · have hb : jsLtNum (some ((((c * 60 + d) - (a * 60 + b) : Nat)) : Int)) 60 = true := by
      simp only [jsLtNum, decide_eq_true_eq]
      omega
    rw [if_pos hb, if_pos hlt]
    simp only [numToString, toString_intOfNat]
  · have hb : ¬ jsLtNum (some ((((c * 60 + d) - (a * 60 + b) : Nat)) : Int)) 60 = true := by
      simp only [jsLtNum, decide_eq_true_eq]
      omega
    rw [if_neg hb, if_neg hlt]
    by_cases hz : ((c * 60 + d) - (a * 60 + b)) % 60 = 0
    · have hg : ¬ jsGtNum (some ((((c * 60 + d) - (a * 60 + b)) % 60 : Nat) : Int)) 0
          = true := by
        simp only [jsGtNum, decide_eq_true_eq]
        omega
      rw [if_neg hg, if_pos hz]
      simp only [numToString, toString_intOfNat]
    · have hg : jsGtNum (some ((((c * 60 + d) - (a * 60 + b)) % 60 : Nat) : Int)) 0
          = true := by
        simp only [jsGtNum, decide_eq_true_eq]
        omega
      rw [if_pos hg, if_neg hz]
      simp only [numToString, toString_intOfNat]

/-- C5 (witness): `08:00`-`08:45` gives `"45 minutos"`,
`08:00`-`09:30` gives `"1h 30min"`, `08:00`-`10:00` gives
`"2 horas"`. -/
theorem calculateDuration_formats_w :
    calculateDuration "08:00" "08:45" = "45 minutos" ∧
    calculateDuration "08:00" "09:30" = "1h 30min" ∧
    calculateDuration "08:00" "10:00" = "2 horas" := by
  refine ⟨?_, ?_, ?_⟩
  · have h := calculateDuration_formats "08:00" "08:45" 8 0 8 45 (by decide) (by decide)
      (by norm_num)
    rw [h]
    decide
  · have h := calculateDuration_formats "08:00" "09:30" 8 0 9 30 (by decide) (by decide)
      (by norm_num)
    rw [h]
    decide
  · have h := calculateDuration_formats "08:00" "10:00" 8 0 10 0 (by decide) (by decide)
      (by norm_num)
    rw [h]
    decide

/-- C10: for well-formed `HH:MM` inputs with the end strictly before
the start there is no special case: the under-60 branch renders
`"{m} minutos"` with a negative minute count. -/
theorem calculateDuration_negative (s t : String) (a b c d : Nat)
    (hs : parseClockHHMM s = some (a, b)) (ht : parseClockHHMM t = some (c, d))
    (hlt : c * 60 + d < a * 60 + b) :
    calculateDuration s t
      = toString (((c * 60 + d : Nat) : Int) - ((a * 60 + b : Nat) : Int)) ++ " minutos" ∧
    ((c * 60 + d : Nat) : Int) - ((a * 60 + b : Nat) : Int) < 0 := by
  have hmin := duration_minutes_eq s t a b c d hs ht
  have hneg : ((c * 60 + d : Nat) : Int) - ((a * 60 + b : Nat) : Int) < 0 := by omega
  refine ⟨?_, hneg⟩
  simp only [calculateDuration]
  rw [hmin]
  have hb : jsLtNum (some (((c * 60 + d : Nat) : Int) - ((a * 60 + b : Nat) : Int))) 60
      = true := by
    simp only [jsLtNum, decide_eq_true_eq]
    omega
  rw [if_pos hb]
  rfl

/-- C10 (witness): `09:00`-`08:30` gives `"-30 minutos"`. -/
theorem calculateDuration_negative_w :
    calculateDuration "09:00" "08:30" = "-30 minutos" := by
  have h := (calculateDuration_negative "09:00" "08:30" 9 0 8 30 (by decide) (by decide)
    (by norm_num)).1
  rw [h]
  decide

end Escala

